import Mathlib

/-!
# Verification of `localization-asgi`

A shallow embedding, in Lean 4, of the locale-resolution core of the
`localization-asgi` repository (`src/localization_asgi.py`), together with
theorems settling the frozen claims about its specification.

Modelling conventions:

* Python strings are Lean `String`s; `str.split(sep)` and `str.strip()` are
  re-implemented character-by-character (`pySplit`, `pyStrip`) with the exact
  Python semantics for a non-empty separator (leftmost, non-overlapping
  matches; an empty string splits to `[""]`; a trailing separator yields a
  trailing `""`). `pyStrip` strips the ASCII whitespace characters stripped by
  Python's `str.strip()`.
* Python `float` weights are modelled as rationals `ℚ`; the builtin parser
  `float(...)` is an external library function, so it is abstracted as a
  parameter `pyFloat : String → Option ℚ`, with `none` modelling a raised
  `ValueError`.  Every general theorem quantifies over this parameter; the
  concrete parser `testFloat` below is used only to instantiate witnesses.
* Python exceptions are modelled with `Except PyErr`; dictionary lookups that
  can raise `KeyError` take `Option` inputs where `none` is an absent key.
* Python's `sorted(xs, key=..., reverse=True)` is a stable descending sort;
  `List.insertionSort` with the relation `weight b ≤ weight a` is a stable
  descending sort over the same total preorder, hence extensionally the same
  function on every input.
* The ASGI scope is modelled by `Scope`, with the keys the core touches
  (`session`, `locales`); starlette `URL` parsing (`urlsplit`) is external,
  abstracted as `parse : String → Option URLParts` where `none` models a
  raised `ValueError` and `URLParts.netloc` is the authority component.
-/

namespace LocalizationASGI

/-- Python exception kinds raised or caught by the embedded code. -/
inductive PyErr : Type
  | keyError : PyErr
  | valueError : PyErr
deriving DecidableEq

/-- Character-level worker for Python `str.split(sep)` with non-empty
separator `s0 :: srest`.  `fuel` is an upper bound on the number of steps
(each step consumes at least one character, so `fuel = length of the input`
suffices and the `0` case is unreachable from `pySplit`);
`acc` holds the current chunk, reversed. -/
def chSplit (s0 : Char) (srest : List Char) : Nat → List Char → List Char → List (List Char)
  | 0, xs, acc => [acc.reverse ++ xs]
  | _ + 1, [], acc => [acc.reverse]
  | n + 1, c :: rest, acc =>
    if c = s0 ∧ rest.take srest.length = srest then
      acc.reverse :: chSplit s0 srest n (rest.drop srest.length) []
    else
      chSplit s0 srest n rest (c :: acc)

/-- Python `s.split(sep)` for a non-empty separator: split on every
leftmost, non-overlapping occurrence of `sep`.  (Python raises for an empty
separator; the code under verification only uses `","` and `";q="`.) -/
def pySplit (s : String) (sep : String) : List String :=
  match sep.data with
  | [] => [s]
  | c :: cs => (chSplit c cs s.data.length s.data []).map String.mk

/-- The ASCII whitespace characters stripped by Python `str.strip()`. -/
def pyIsSpace (c : Char) : Bool :=
  c = ' ' ∨ c = '\t' ∨ c = '\n' ∨ c = '\r' ∨ c = '\x0b' ∨ c = '\x0c'

/-- Python `s.strip()`: remove leading and trailing whitespace. -/
def pyStrip (s : String) : String :=
  String.mk ((s.data.dropWhile pyIsSpace).reverse.dropWhile pyIsSpace).reverse

/-- A concrete instance of the abstract float parser, deciding just the
decimal literals appearing in the repository's tests; used only to
instantiate witnesses and counterexamples (general theorems quantify over an
arbitrary `pyFloat`).  It maps `"0.5"` to one half, `"1.0"` and `"1"` to one,
`"0"` and `"0.0"` to zero, and everything else (e.g. `"abc"`) to `none`,
matching Python `float(...)` on these inputs. -/
def testFloat (s : String) : Option ℚ :=
  if s = "0.5" then some (Rat.mk' 1 2)
  else if s = "1.0" ∨ s = "1" then some 1
  else if s = "0.0" ∨ s = "0" then some 0
  else none

/-- Embedding of `_get_locales_and_weights` (src/localization_asgi.py,
lines 66-71).  `entry.split(";q=")` has no maxsplit bound, so it splits on
every occurrence of `";q="`; the weight is parsed from `parts[1]` only when
the split yields exactly two parts, and defaults to `1.0` otherwise.  A
`ValueError` from `float` (modelled by `pyFloat _ = none`) is caught and the
whole entry becomes `None`. -/
def get_locales_and_weights (pyFloat : String → Option ℚ) (entry : String) :
    Option (String × ℚ) :=
  let parts := pySplit entry ";q="
  if parts.length = 2 then
    match pyFloat (pyStrip (parts.getD 1 "")) with
    | some w => some (pyStrip (parts.getD 0 ""), w)
    | none => none
  else
    some (pyStrip (parts.getD 0 ""), 1)

/-- The comparison passed to the sort in `_get_sorted_locales`:
`sorted(valid_entries, key=lambda x: x[1], reverse=True)` places `a` before
`b` exactly when the weight of `b` is at most the weight of `a`
(ties keep source order because Python's sort is stable). -/
def weightGE (a b : String × ℚ) : Prop := b.2 ≤ a.2

instance : DecidableRel weightGE := fun a b => inferInstanceAs (Decidable (b.2 ≤ a.2))

instance : IsTotal (String × ℚ) weightGE := ⟨fun a b => le_total b.2 a.2⟩

instance : IsTrans (String × ℚ) weightGE := ⟨fun _ _ _ h1 h2 => le_trans h2 h1⟩

/-- Embedding of `_get_sorted_locales` (lines 74-76): keep the entries that
parsed (`[x for x in locales_weights if x]`; a pair is always truthy), sort
them by weight descending with a stable sort, and drop the weights. -/
def get_sorted_locales (locales_weights : List (Option (String × ℚ))) : List String :=
  ((locales_weights.filterMap id).insertionSort weightGE).map Prod.fst

/-- Embedding of `_get_locales` (lines 79-85).  `header` is the raw
`accept-language` header value, `none` when the header is absent (the
`KeyError` of the dictionary lookup is caught and yields `[]`). -/
def get_locales (pyFloat : String → Option ℚ) (header : Option String) : List String :=
  match header with
  | none => []
  | some h => get_sorted_locales ((pySplit h ",").map (get_locales_and_weights pyFloat))

/-- The surviving (successfully parsed) weighted entries of a header, in
header order: the intermediate value `valid_entries` of `_get_sorted_locales`
applied to the entries of `_get_locales`. -/
def valid_entries (pyFloat : String → Option ℚ) (h : String) : List (String × ℚ) :=
  ((pySplit h ",").map (get_locales_and_weights pyFloat)).filterMap id

/-- The surviving weighted entries after the stable descending sort of
`_get_sorted_locales`. -/
def sorted_entries (pyFloat : String → Option ℚ) (h : String) : List (String × ℚ) :=
  (valid_entries pyFloat h).insertionSort weightGE

/-- A Python dictionary lookup `d[k]`: raises `KeyError` when the key is
absent. -/
def dictGet {α : Type} (v : Option α) : Except PyErr α :=
  match v with
  | some a => Except.ok a
  | none => Except.error PyErr.keyError

/-- The builtin `float(s)` as a raising operation: `ValueError` when the
abstract parser fails. -/
def pyFloatE (pyFloat : String → Option ℚ) (s : String) : Except PyErr ℚ :=
  match pyFloat s with
  | some q => Except.ok q
  | none => Except.error PyErr.valueError

/-- Exception-explicit embedding of `_get_locales_and_weights`: the body of
the `try` block builds the pair (possibly raising `ValueError` from `float`),
and `except ValueError: return None` converts exactly that exception into a
normal `None` result. -/
def get_locales_and_weightsE (pyFloat : String → Option ℚ) (entry : String) :
    Except PyErr (Option (String × ℚ)) :=
  let parts := pySplit entry ";q="
  let body : Except PyErr (String × ℚ) :=
    if parts.length = 2 then
      (pyFloatE pyFloat (pyStrip (parts.getD 1 ""))).map
        (fun w => (pyStrip (parts.getD 0 ""), w))
    else
      Except.ok (pyStrip (parts.getD 0 ""), 1)
  match body with
  | Except.ok v => Except.ok (some v)
  | Except.error PyErr.valueError => Except.ok none
  | Except.error e => Except.error e

/-- Exception-explicit embedding of `_get_locales`: the header lookup may
raise `KeyError`, which `except KeyError: return []` converts into `[]`;
the per-entry processing and the sort follow. -/
def get_localesE (pyFloat : String → Option ℚ) (header : Option String) :
    Except PyErr (List String) :=
  match dictGet header with
  | Except.error PyErr.keyError => Except.ok []
  | Except.error e => Except.error e
  | Except.ok h => do
    let lws ← (pySplit h ",").mapM (get_locales_and_weightsE pyFloat)
    pure (get_sorted_locales lws)

/-- The `scope["session"]` structure: a dictionary in which the key
`"locales"` may be absent. -/
structure Session : Type where
  locales : Option (List String) := none
deriving DecidableEq

/-- The ASGI scope, restricted to the keys the core reads and writes: the
`"session"` key (absent unless a session middleware installed it) and the
top-level `"locales"` key written by the middleware.  (The `"translations"`
key holds an opaque external gettext object and is not modelled.) -/
structure Scope : Type where
  session : Option Session := none
  locales : Option (List String) := none
deriving DecidableEq

/-- Embedding of `_default_read_locales` (lines 55-59):
`return scope["session"]["locales"]` with `except KeyError: return []`, so a
missing `session` key or a missing `locales` key inside it yields `[]`. -/
def default_read_locales (scope : Scope) : List String :=
  match scope.session with
  | none => []
  | some s =>
    match s.locales with
    | none => []
    | some l => l

/-- Embedding of `_default_write_locales` (lines 62-63):
`scope["session"]["locales"] = locales`.  The lookup `scope["session"]`
raises an uncaught `KeyError` when the session key is absent; otherwise the
assignment sets (or creates) the `"locales"` key inside the session. -/
def default_write_locales (scope : Scope) (locales : List String) : Except PyErr Scope :=
  match scope.session with
  | none => Except.error PyErr.keyError
  | some s => Except.ok { scope with session := some { s with locales := some locales } }

/-- Python truthiness of `a or b` on lists: an empty list is falsy, so the
expression evaluates to `a` when `a` is non-empty and to `b` otherwise. -/
def pyListOr (a b : List String) : List String :=
  if a.isEmpty then b else a

/-- Embedding of the locale-resolution part of
`LocalizationMiddleware.dispatch` (lines 109-119):
`request.scope["locales"] = self.read_preferred(request.scope) or _get_locales(request)`.
`read_preferred` is the injected `ReadPreferredLocales` hook; its Protocol
contract (returns a list, never raises) is captured by the total Lean type
`Scope → List String`.  The construction of the opaque `translations` object
delegates to the external gettext library and is not modelled. -/
def dispatch (read_preferred : Scope → List String) (pyFloat : String → Option ℚ)
    (scope : Scope) (header : Option String) : Scope :=
  { scope with locales := some (pyListOr (read_preferred scope) (get_locales pyFloat header)) }

/-- The components of a parsed URL that `_get_redirect_url` inspects: the
authority (netloc), `""` when the URL has none. -/
structure URLParts : Type where
  netloc : String
deriving DecidableEq

/-- Embedding of `LocalizationApp._get_redirect_url` (lines 153-160).
`parse` abstracts starlette `URL` / `urlsplit`, with `none` modelling a
`ValueError`; `query_redirect` is the `redirect` query parameter (`none` =
absent, the `KeyError` case); `request_netloc` is `request.url.netloc`.
`str(redirect_to)` returns the original string unchanged (starlette stores
it verbatim), and both `KeyError` and `ValueError` fall through to the
default redirect URL. -/
def get_redirect_url (parse : String → Option URLParts) (default_redirect_url : String)
    (request_netloc : String) (query_redirect : Option String) : String :=
  match query_redirect with
  | none => default_redirect_url
  | some s =>
    match parse s with
    | none => default_redirect_url
    | some u =>
      if u.netloc = "" ∨ u.netloc = request_netloc then s else default_redirect_url

/-- Exception-explicit embedding of `_get_redirect_url`: the `try` body may
raise `KeyError` (absent parameter) or `ValueError` (URL parsing); both are
caught by `except (KeyError, ValueError): pass` and the default is
returned. -/
def get_redirect_urlE (parse : String → Option URLParts) (default_redirect_url : String)
    (request_netloc : String) (query_redirect : Option String) : Except PyErr String :=
  let body : Except PyErr (Option String) := do
    let s ← dictGet query_redirect
    let u ← match parse s with
      | some u => Except.ok u
      | none => Except.error PyErr.valueError
    if u.netloc = "" ∨ u.netloc = request_netloc then
      pure (some s)
    else
      pure none
  match body with
  | Except.ok (some s) => Except.ok s
  | Except.ok none => Except.ok default_redirect_url
  | Except.error PyErr.keyError => Except.ok default_redirect_url
  | Except.error PyErr.valueError => Except.ok default_redirect_url

/-- Embedding of `LocalizationApp._get_locales` (lines 162-166):
`request.query_params["locales"].split(",")`, with `except KeyError` giving
the configured default locales.  `query_locales` is the raw value of the
`locales` query parameter, `none` when absent. -/
def app_get_locales (default_locales : List String) (query_locales : Option String) :
    List String :=
  match query_locales with
  | none => default_locales
  | some s => pySplit s ","

/-- A redirect response as built by `_set_locales`: target location and
status code (additional headers are passed through unchanged and are not
modelled). -/
structure RedirectResponseModel : Type where
  location : String
  status_code : Nat
deriving DecidableEq

/-- Embedding of `LocalizationApp._set_locales` (lines 168-172): call the
injected write hook with the parsed `locales` query parameter (an exception
from the hook propagates), then build the redirect response from
`_get_redirect_url`. -/
def set_locales (write_preferred_locales : Scope → List String → Except PyErr Scope)
    (parse : String → Option URLParts) (default_redirect_url : String)
    (default_locales : List String) (status_code : Nat) (scope : Scope)
    (query_locales query_redirect : Option String) (request_netloc : String) :
    Except PyErr (Scope × RedirectResponseModel) := do
  let scope' ← write_preferred_locales scope (app_get_locales default_locales query_locales)
  pure (scope',
    { location := get_redirect_url parse default_redirect_url request_netloc query_redirect
      status_code := status_code })

/-- Modelled from the spec: the per-entry parsing that the claim describes,
with the split bounded to at most two parts ("For each raw entry, split on
the literal substring `;q=` into at most two parts"), i.e. the split stops
at the first occurrence of the separator; declared only to be compared with
`get_locales_and_weights`, which embeds the source. -/
def chSplitFirst (s0 : Char) (srest : List Char) : Nat → List Char → List Char → List (List Char)
  | 0, xs, acc => [acc.reverse ++ xs]
  | _ + 1, [], acc => [acc.reverse]
  | n + 1, c :: rest, acc =>
    if c = s0 ∧ rest.take srest.length = srest then
      [acc.reverse, rest.drop srest.length]
    else
      chSplitFirst s0 srest n rest (c :: acc)

/-- Modelled from the spec: `s.split(sep, 1)` — split only at the first
occurrence of the separator, yielding at most two parts. -/
def pySplitMax1 (s : String) (sep : String) : List String :=
  match sep.data with
  | [] => [s]
  | c :: cs => (chSplitFirst c cs s.data.length s.data []).map String.mk

/-- Modelled from the spec: the entry parser as the claim states it — at
most two parts, the second (the whole remainder after the first `;q=`)
parsed as the weight. -/
def get_locales_and_weights_spec (pyFloat : String → Option ℚ) (entry : String) :
    Option (String × ℚ) :=
  let parts := pySplitMax1 entry ";q="
  if parts.length = 2 then
    match pyFloat (pyStrip (parts.getD 1 "")) with
    | some w => some (pyStrip (parts.getD 0 ""), w)
    | none => none
  else
    some (pyStrip (parts.getD 0 ""), 1)

/-- C1: for every request to `/set_locales`, the redirect target follows the
exact case analysis of `_get_redirect_url`: absent or unparsable `redirect`
parameter gives the configured default; a parsed URL is returned verbatim
exactly when it has no netloc or its netloc equals the request's netloc, and
any other value is replaced by the default; the exception-explicit embedding
always returns `ok`, so no error is raised or surfaced. -/
theorem claim_C1 (parse : String → Option URLParts) (d rn : String) (qr : Option String) :
    (qr = none → get_redirect_url parse d rn qr = d) ∧
    (∀ s, qr = some s → parse s = none → get_redirect_url parse d rn qr = d) ∧
    (∀ s u, qr = some s → parse s = some u →
      (get_redirect_url parse d rn qr = s ↔ (s = d ∨ u.netloc = "" ∨ u.netloc = rn))) ∧
    (∀ s u, qr = some s → parse s = some u → ¬(u.netloc = "" ∨ u.netloc = rn) →
      get_redirect_url parse d rn qr = d) ∧
    get_redirect_urlE parse d rn qr = Except.ok (get_redirect_url parse d rn qr) := by
  refine ⟨?_, ?_, ?_, ?_, ?_⟩
  · rintro rfl; rfl
  · rintro s rfl hs; simp [get_redirect_url, hs]
  · rintro s u rfl hu
    simp only [get_redirect_url, hu]
    by_cases h : u.netloc = "" ∨ u.netloc = rn
    · rw [if_pos h]
      simp [h]
    · rw [if_neg h]
      constructor
      · intro hd
        exact Or.inl hd.symm
      · intro hc
        rcases hc with hc | hc
        · exact hc.symm
        · exact absurd hc h
  · rintro s u rfl hu h
    simp [get_redirect_url, hu, h]
  · rcases qr with _ | s
    · rfl
    · rcases hp : parse s with _ | u
      · simp [get_redirect_urlE, get_redirect_url, dictGet, hp, Except.bind, bind]
      · by_cases h : u.netloc = "" ∨ u.netloc = rn <;>
          simp [get_redirect_urlE, get_redirect_url, dictGet, hp, h, Except.bind, bind,
            pure, Except.pure]

/-- Witness for C1 at a concrete cross-origin input: a parsed redirect whose
netloc differs from the request's is replaced by the default URL. -/
theorem claim_C1_witness :
    get_redirect_url (fun _ => some ⟨"evil.example"⟩) "/" "testserver"
      (some "http://evil.example/x") = "/" :=
  (claim_C1 (fun _ => some ⟨"evil.example"⟩) "/" "testserver"
      (some "http://evil.example/x")).2.2.2.1 "http://evil.example/x" ⟨"evil.example"⟩
    rfl rfl (by decide)

/-- C2: in `dispatch`, a non-empty result of the read-preferred hook becomes
the locale list unchanged and the header plays no role (the scope produced
is the same for any two header values); an empty result makes the locale
list exactly the resolver's output on the raw header value. -/
theorem claim_C2 (read_preferred : Scope → List String) (pyFloat : String → Option ℚ)
    (scope : Scope) (header : Option String) :
    (read_preferred scope ≠ [] →
      (dispatch read_preferred pyFloat scope header).locales = some (read_preferred scope)) ∧
    (read_preferred scope ≠ [] → ∀ h1 h2 : Option String,
      dispatch read_preferred pyFloat scope h1 = dispatch read_preferred pyFloat scope h2) ∧
    (read_preferred scope = [] →
      (dispatch read_preferred pyFloat scope header).locales =
        some (get_locales pyFloat header)) := by
  refine ⟨?_, ?_, ?_⟩
  · intro hne
    simp [dispatch, pyListOr, List.isEmpty_iff, hne]
  · intro hne h1 h2
    simp [dispatch, pyListOr, List.isEmpty_iff, hne]
  · intro he
    simp [dispatch, pyListOr, he]

/-- Witness for C2: a stored preference `["en", "de"]` fully overrides the
header `"fr"`. -/
theorem claim_C2_witness :
    (dispatch (fun _ => ["en", "de"]) testFloat { session := none, locales := none }
      (some "fr")).locales = some ["en", "de"] :=
  (claim_C2 (fun _ => ["en", "de"]) testFloat { session := none, locales := none }
    (some "fr")).1 (by decide)

/-- C7 counterexample: the default write hook does not initialize a missing
session structure — writing a preference into a scope with no session raises
`KeyError` instead of succeeding. -/
theorem claim_C7_counterexample :
    default_write_locales { session := none, locales := none } ["en"] =
      Except.error PyErr.keyError := rfl

/-- C7 (amended): with the default hooks, when the session structure is
absent the default read hook returns the empty list, but the default write
hook raises `KeyError`; only when a session structure exists does the write
succeed, initializing (or overwriting) the `locales` entry inside it. -/
theorem claim_C7_amended (scope : Scope) (locales : List String) :
    (scope.session = none →
      default_read_locales scope = [] ∧
      default_write_locales scope locales = Except.error PyErr.keyError) ∧
    (∀ s, scope.session = some s →
      default_write_locales scope locales =
        Except.ok { scope with session := some { s with locales := some locales } }) := by
  constructor
  · intro h
    constructor
    · simp [default_read_locales, h]
    · simp [default_write_locales, h]
  · intro s h
    simp [default_write_locales, h]

/-- Witness for C7 (amended), at a scope without a session and at a scope
with an empty session. -/
theorem claim_C7_amended_witness :
    (default_read_locales { session := none, locales := none } = [] ∧
      default_write_locales { session := none, locales := none } ["en"] =
        Except.error PyErr.keyError) ∧
    default_write_locales { session := some { locales := none }, locales := none } ["en"] =
      Except.ok { session := some { locales := some ["en"] }, locales := none } :=
  ⟨(claim_C7_amended { session := none, locales := none } ["en"]).1 rfl,
    (claim_C7_amended { session := some { locales := none }, locales := none } ["en"]).2
      { locales := none } rfl⟩

/-- C8: after `dispatch`, the value stored under the scope's `locales` key
is always `some` list of strings (the hook's contract of returning a list
and never raising is captured by its total Lean type `Scope → List String`),
never absent. -/
theorem claim_C8 (read_preferred : Scope → List String) (pyFloat : String → Option ℚ)
    (scope : Scope) (header : Option String) :
    (dispatch read_preferred pyFloat scope header).locales =
      some (pyListOr (read_preferred scope) (get_locales pyFloat header)) ∧
    (dispatch read_preferred pyFloat scope header).locales ≠ none := by
  exact ⟨rfl, by simp [dispatch]⟩

/-- C9: a `locales` query parameter that is present but empty makes
`_set_locales` call the write hook with `[""]` (Python `"".split(",")` is
`[""]`), not with the configured default locales. -/
theorem claim_C9 (write_preferred_locales : Scope → List String → Except PyErr Scope)
    (parse : String → Option URLParts) (d_url : String) (d_locales : List String)
    (code : Nat) (scope : Scope) (query_redirect : Option String) (rn : String) :
    app_get_locales d_locales (some "") = [""] ∧
    set_locales write_preferred_locales parse d_url d_locales code scope
        (some "") query_redirect rn =
      (write_preferred_locales scope [""]).bind (fun scope' =>
        Except.ok (scope',
          { location := get_redirect_url parse d_url rn query_redirect
            status_code := code })) := by
  refine ⟨rfl, ?_⟩
  have hs : pySplit "" "," = [""] := rfl
  rcases h : write_preferred_locales scope [""] with e | s <;>
    simp [set_locales, app_get_locales, hs, h, Except.bind, bind, pure, Except.pure]

/-- C4 counterexample: on the entry `"en;q=0.5;q=0.8"` the claim's reading
(split into at most two parts, second part `"0.5;q=0.8"`, whose weight parse
fails, dropping the entry) yields `none`, but the code splits on every
occurrence of `";q="`, obtains three parts, skips weight parsing entirely
and keeps the entry with the default weight: `some ("en", 1)`. -/
theorem claim_C4_counterexample :
    get_locales_and_weights_spec testFloat "en;q=0.5;q=0.8" = none ∧
    get_locales_and_weights testFloat "en;q=0.5;q=0.8" = some ("en", 1) ∧
    pySplitMax1 "en;q=0.5;q=0.8" ";q=" = ["en", "0.5;q=0.8"] ∧
    pySplit "en;q=0.5;q=0.8" ";q=" = ["en", "0.5", "0.8"] := by
  refine ⟨by decide, by decide, by decide, by decide⟩

/-- C4 (amended): each raw entry is split on every occurrence of `";q="`
(not at most two parts); only when this yields exactly two parts is the
second part, trimmed, parsed as the weight; with one part, or with three or
more parts (the entry contains `";q="` at least twice), the weight defaults
to 1.0 without any parse.  In particular `"en;q=0.5;q=0.8"` splits into
three parts and survives as `("en", 1.0)`. -/
theorem claim_C4_amended (pyFloat : String → Option ℚ) (entry : String) :
    (∀ l w, pySplit entry ";q=" = [l, w] →
      get_locales_and_weights pyFloat entry =
        (pyFloat (pyStrip w)).map (fun q => (pyStrip l, q))) ∧
    (∀ parts, pySplit entry ";q=" = parts → parts.length ≠ 2 →
      get_locales_and_weights pyFloat entry = some (pyStrip (parts.getD 0 ""), 1)) ∧
    get_locales_and_weights pyFloat "en;q=0.5;q=0.8" = some ("en", 1) := by
  refine ⟨?_, ?_, ?_⟩
  · intro l w hp
    simp only [get_locales_and_weights, hp]
    rcases hf : pyFloat (pyStrip w) with _ | q <;> simp [hf]
  · intro parts hp hlen
    simp only [get_locales_and_weights, hp]
    rw [if_neg hlen]
  · have hsp : pySplit "en;q=0.5;q=0.8" ";q=" = ["en", "0.5", "0.8"] := by decide
    simp only [get_locales_and_weights, hsp]
    norm_num
    decide

/-- Witness for C4 (amended) at an entry with a single `";q="`: the second
part is parsed and the pair is kept with the parsed weight. -/
theorem claim_C4_amended_witness :
    get_locales_and_weights testFloat "en;q=0.5" = some ("en", Rat.mk' 1 2) := by
  have h := (claim_C4_amended testFloat "en;q=0.5").1 "en" "0.5" (by decide)
  rw [h]
  decide

/-- C5: an entry whose weight part is present but fails to parse is
discarded in its entirety (`_get_locales_and_weights` returns `None`, so the
identifier never reaches the output), the surrounding entries are processed
as if it were not there, and the whole resolution still succeeds — on the
spec's example the malformed `"de-DE;q=abc"` is dropped while `"en;q=0.5"`
is kept. -/
theorem claim_C5 (pyFloat : String → Option ℚ) (pre post : List String) (e : String) :
    (∀ l w, pySplit e ";q=" = [l, w] → pyFloat (pyStrip w) = none →
      get_locales_and_weights pyFloat e = none) ∧
    (get_locales_and_weights pyFloat e = none →
      get_sorted_locales ((pre ++ e :: post).map (get_locales_and_weights pyFloat)) =
        get_sorted_locales ((pre ++ post).map (get_locales_and_weights pyFloat))) ∧
    get_locales testFloat (some "en;q=0.5, de-DE;q=abc") = ["en"] := by
  refine ⟨?_, ?_, by decide⟩
  · intro l w hp hf
    simp only [get_locales_and_weights, hp]
    simp [hf]
  · intro he
    simp [get_sorted_locales, List.map_append, List.filterMap_append, he]

/-- Witness for C5: the malformed entry of the spec's example is dropped
entirely, and removing it from the header leaves the resolution of the
remaining entries unchanged. -/
theorem claim_C5_witness :
    get_locales_and_weights testFloat "de-DE;q=abc" = none ∧
    get_sorted_locales ((["en;q=0.5"] ++ "de-DE;q=abc" :: []).map
        (get_locales_and_weights testFloat)) =
      get_sorted_locales ((["en;q=0.5"] ++ []).map (get_locales_and_weights testFloat)) :=
  ⟨(claim_C5 testFloat [] [] "de-DE;q=abc").1 "de-DE" "abc" (by decide) (by decide),
    (claim_C5 testFloat ["en;q=0.5"] [] "de-DE;q=abc").2.1 (by decide)⟩

/-- Every raw entry that parses contributes its locale identifier to the
resolver's output: the surviving pair is in the filtered entries, the sort
preserves membership, and the projection keeps the identifier. -/
theorem mem_get_locales_of_entry (pyFloat : String → Option ℚ) (h e l : String) (q : ℚ)
    (he : e ∈ pySplit h ",") (hf : get_locales_and_weights pyFloat e = some (l, q)) :
    l ∈ get_locales pyFloat (some h) := by
  have hv : (l, q) ∈ valid_entries pyFloat h := by
    simp only [valid_entries, List.mem_filterMap, List.mem_map, id_eq]
    exact ⟨some (l, q), ⟨e, he, hf⟩, rfl⟩
  have hs : (l, q) ∈ sorted_entries pyFloat h := by
    simpa [sorted_entries, List.mem_insertionSort] using hv
  exact List.mem_map_of_mem Prod.fst hs

/-- C10: for every header value and every float parser, an empty raw entry
(e.g. from a trailing or doubled comma) is kept as the pair `("", 1.0)`, and
an entry that is only a weight (its part before `";q="` is empty) whose
weight parses is kept as `("", w)`; consequently, whenever a header contains
such an entry the empty string appears in the resolved locale list rather
than the entry being dropped. -/
theorem claim_C10 (pyFloat : String → Option ℚ) (h : String) :
    get_locales_and_weights pyFloat "" = some ("", 1) ∧
    (∀ e w q, pySplit e ";q=" = ["", w] → pyFloat (pyStrip w) = some q →
      get_locales_and_weights pyFloat e = some ("", q)) ∧
    ("" ∈ pySplit h "," → "" ∈ get_locales pyFloat (some h)) ∧
    (∀ e w q, e ∈ pySplit h "," → pySplit e ";q=" = ["", w] →
      pyFloat (pyStrip w) = some q → "" ∈ get_locales pyFloat (some h)) := by
  have hweight : ∀ e w q, pySplit e ";q=" = ["", w] → pyFloat (pyStrip w) = some q →
      get_locales_and_weights pyFloat e = some ("", q) := by
    intro e w q hp hf
    simp only [get_locales_and_weights, hp]
    simp [hf]
    rfl
  refine ⟨rfl, hweight, ?_, ?_⟩
  · intro he
    exact mem_get_locales_of_entry pyFloat h "" "" 1 he rfl
  · intro e w q he hp hf
    exact mem_get_locales_of_entry pyFloat h e "" q he (hweight e w q hp hf)

/-- Witness for C10: the trailing comma of `"en,"` puts `""` in the resolved
list, and the weight-only entry of `"fr,;q=0.5"` does so as well. -/
theorem claim_C10_witness :
    "" ∈ get_locales testFloat (some "en,") ∧
    "" ∈ get_locales testFloat (some "fr,;q=0.5") :=
  ⟨(claim_C10 testFloat "en,").2.2.1 (by decide),
    (claim_C10 testFloat "fr,;q=0.5").2.2.2 ";q=0.5" "0.5" (Rat.mk' 1 2)
      (by decide) (by decide) (by decide)⟩

/-- C3: the resolver's output is the surviving entries sorted by weight in
descending order with the weights dropped, and the sort is stable: any two
surviving entries in weight-tie keep, in the sorted sequence, the relative
order they had among the surviving entries of the raw header. -/
theorem claim_C3 (pyFloat : String → Option ℚ) (h : String) :
    get_locales pyFloat (some h) = (sorted_entries pyFloat h).map Prod.fst ∧
    (sorted_entries pyFloat h).Pairwise weightGE ∧
    ∀ a b : String × ℚ, a.2 = b.2 → List.Sublist [a, b] (valid_entries pyFloat h) →
      List.Sublist [a, b] (sorted_entries pyFloat h) := by
  refine ⟨rfl, ?_, ?_⟩
  · exact List.sorted_insertionSort weightGE (valid_entries pyFloat h)
  · intro a b heq hsub
    exact List.pair_sublist_insertionSort (le_of_eq heq.symm) hsub

/-- Witness for C3: the equal-weight entries `("a", 1)` and `("b", 1)` of
the header `"a, b, c;q=0.5"` keep their header order in the sorted
entries. -/
theorem claim_C3_witness :
    List.Sublist [("a", (1 : ℚ)), ("b", 1)] (sorted_entries testFloat "a, b, c;q=0.5") :=
  (claim_C3 testFloat "a, b, c;q=0.5").2.2 ("a", 1) ("b", 1) rfl (by decide)

/-- The exception-explicit entry parser never lets an exception escape: it
always returns `ok` of what the pure embedding computes (`float`'s
`ValueError` is caught by the entry's `try`/`except`). -/
theorem get_locales_and_weightsE_ok (pyFloat : String → Option ℚ) (entry : String) :
    get_locales_and_weightsE pyFloat entry =
      Except.ok (get_locales_and_weights pyFloat entry) := by
  simp only [get_locales_and_weightsE, get_locales_and_weights, pyFloatE]
  by_cases hl : (pySplit entry ";q=").length = 2
  · rw [if_pos hl, if_pos hl]
    rcases hf : pyFloat (pyStrip ((pySplit entry ";q=").getD 1 "")) with _ | q <;>
      simp [hf, Except.map]
  · rw [if_neg hl, if_neg hl]

/-- Mapping the exception-explicit entry parser over any list of raw entries
succeeds, returning exactly the list of pure results. -/
theorem mapM_get_locales_and_weightsE (pyFloat : String → Option ℚ) (es : List String) :
    es.mapM (get_locales_and_weightsE pyFloat) =
      Except.ok (es.map (get_locales_and_weights pyFloat)) := by
  induction es with
  | nil => rfl
  | cons e es ih =>
    rw [List.mapM_cons, get_locales_and_weightsE_ok, ih]
    rfl

/-- C6: locale resolution is total — the exception-explicit embedding
returns `ok` (never an error) on every input, an absent header resolves to
the empty list, and the result always agrees with the pure resolver. -/
theorem claim_C6 (pyFloat : String → Option ℚ) (header : Option String) :
    get_localesE pyFloat header = Except.ok (get_locales pyFloat header) ∧
    get_localesE pyFloat none = Except.ok [] ∧
    get_locales pyFloat none = [] := by
  refine ⟨?_, rfl, rfl⟩
  rcases header with _ | h
  · rfl
  · simp only [get_localesE, get_locales, dictGet, mapM_get_locales_and_weightsE]
    rfl

end LocalizationASGI
